import Mathlib

/-
Verification of the recipe-app-api data-access layer.

The embedding models the ownership-scoped repository and the
nested-entity reconciler of the recipe API.  Views come from
src/app/recipe/views.py; the serializer layer (recipe/serializers.py)
is not part of the provided sources, so the reconciler and the
serializer field handling are modelled from the specification
(sections 4.1, 4.2, 4.3 of spec.md), faithful to its words.

Users are identified by a Nat key; prices are modelled as integers
(cent amounts); image payloads are modelled as `Option String`, where
`some` stands for a payload that decodes as an image and `none` for an
undecodable payload (image format validation itself is delegated to
the framework and out of scope, spec section 1).
-/

namespace RecipeApp

/-- Row of the Tag table and of the Ingredient table: both have exactly
an id, an owner reference and a name (spec section 3, Tag and
Ingredient have the same shape and the same invariant). -/
structure AttrRow where
  id : Nat
  user : Nat
  name : String
deriving DecidableEq

/-- Row of the Recipe table: owner, title, time estimate, price,
description, external link, optional image reference, and the
many-to-many association id-sets for tags and ingredients. -/
structure Recipe where
  id : Nat
  user : Nat
  title : String
  time_minutes : Nat
  price : Int
  description : String
  link : String
  image : Option String
  tags : List Nat
  ingredients : List Nat
deriving DecidableEq

/-- Database state: the three tables plus the auto-increment counters
of their primary keys. -/
structure DB where
  recipes : List Recipe
  tags : List AttrRow
  ingredients : List AttrRow
  nextRecipeId : Nat
  nextTagId : Nat
  nextIngredientId : Nat
deriving DecidableEq

/-- Well-formedness of a database state: primary keys are unique per
table and below the auto-increment counter of the table. -/
def DB.WF (db : DB) : Prop :=
  (∀ r ∈ db.recipes, r.id < db.nextRecipeId) ∧
  (∀ t ∈ db.tags, t.id < db.nextTagId) ∧
  (∀ i ∈ db.ingredients, i.id < db.nextIngredientId) ∧
  (db.recipes.map Recipe.id).Nodup ∧
  (db.tags.map AttrRow.id).Nodup ∧
  (db.ingredients.map AttrRow.id).Nodup

instance (db : DB) : Decidable db.WF := by
  unfold DB.WF; infer_instance

/-! Ordering.  order_by("-id") sorts by descending id;
order_by("-name") sorts by descending name under the code-point
(case-sensitive ordinal) comparison. -/

/-- Ordinal (code point) less-or-equal on character lists. -/
def strLeb : List Char → List Char → Bool
  | [], _ => true
  | _ :: _, [] => false
  | a :: as, b :: bs =>
    if a.toNat < b.toNat then true
    else if b.toNat < a.toNat then false
    else strLeb as bs

/-- Descending-id order on recipes, from order_by("-id") in
RecipeViewSet.get_queryset. -/
def recipeLe (a b : Recipe) : Prop := b.id ≤ a.id

instance : DecidableRel recipeLe := fun a b => Nat.decLe b.id a.id

instance : IsTrans Recipe recipeLe :=
  ⟨fun _ _ _ h1 h2 => Nat.le_trans h2 h1⟩

instance : IsTotal Recipe recipeLe :=
  ⟨fun a b => Nat.le_total b.id a.id⟩

/-- Descending-name order on tag and ingredient rows, from
order_by("-name") in BaseRecipeAttributeViewSet.get_queryset. -/
def attrLe (a b : AttrRow) : Prop := strLeb b.name.data a.name.data = true

instance : DecidableRel attrLe := fun a b =>
  instDecidableEqBool (strLeb b.name.data a.name.data) true

def strLebTotal (x y : List Char) : strLeb x y = true ∨ strLeb y x = true := by
  induction x generalizing y with
  | nil => left; rfl
  | cons a as ih =>
    cases y with
    | nil => right; rfl
    | cons b bs =>
      by_cases hab : a.toNat < b.toNat
      · left; simp [strLeb, hab]
      · by_cases hba : b.toNat < a.toNat
        · right; simp [strLeb, hba]
        · rcases ih bs with h | h
          · left; simp [strLeb, hab, hba, h]
          · right; simp [strLeb, hab, hba, h]

def strLebTrans (x y z : List Char) (h1 : strLeb x y = true)
    (h2 : strLeb y z = true) : strLeb x z = true := by
  induction x generalizing y z with
  | nil => rfl
  | cons a as ih =>
    cases y with
    | nil => simp [strLeb] at h1
    | cons b bs =>
      cases z with
      | nil => simp [strLeb] at h2
      | cons c cs =>
        simp only [strLeb] at h1 h2 ⊢
        by_cases hab : a.toNat < b.toNat
        · by_cases hbc : b.toNat < c.toNat
          · have : a.toNat < c.toNat := Nat.lt_trans hab hbc
            simp [this]
          · by_cases hcb : c.toNat < b.toNat
            · simp [hab, hbc, hcb] at h2
            · have hbc2 : b.toNat = c.toNat := Nat.le_antisymm (Nat.le_of_not_lt hcb) (Nat.le_of_not_lt hbc)
              have : a.toNat < c.toNat := hbc2 ▸ hab
              simp [this]
        · by_cases hba : b.toNat < a.toNat
          · simp [hab, hba] at h1
          · have hab2 : a.toNat = b.toNat := Nat.le_antisymm (Nat.le_of_not_lt hba) (Nat.le_of_not_lt hab)
            by_cases hbc : b.toNat < c.toNat
            · have : a.toNat < c.toNat := hab2 ▸ hbc
              simp [this]
            · by_cases hcb : c.toNat < b.toNat
              · simp [hbc, hcb] at h2
              · have hac : ¬ a.toNat < c.toNat := by omega
                have hca : ¬ c.toNat < a.toNat := by omega
                simp only [hab, hba, if_neg, if_false] at h1
                simp only [hbc, hcb, if_neg, if_false] at h2
                simp [hac, hca, ih bs cs h1 h2]

instance : IsTrans AttrRow attrLe :=
  ⟨fun _ _ _ h1 h2 => strLebTrans _ _ _ h2 h1⟩

instance : IsTotal AttrRow attrLe :=
  ⟨fun a b => (strLebTotal b.name.data a.name.data)⟩

/-! Ownership-scoped querysets, from src/app/recipe/views.py. -/

/-- RecipeViewSet.get_queryset: filter to the authenticated user, then
order_by("-id"). -/
def recipeGetQueryset (db : DB) (user : Nat) : List Recipe :=
  List.insertionSort recipeLe (db.recipes.filter (fun r => r.user == user))

/-- BaseRecipeAttributeViewSet.get_queryset applied to a table: filter
to the authenticated user, then order_by("-name"). -/
def attrGetQueryset (rows : List AttrRow) (user : Nat) : List AttrRow :=
  List.insertionSort attrLe (rows.filter (fun t => t.user == user))

/-- TagViewSet queryset: the base queryset over the Tag table. -/
def tagGetQueryset (db : DB) (user : Nat) : List AttrRow :=
  attrGetQueryset db.tags user

/-- IngredientViewSet queryset: the base queryset over the Ingredient
table. -/
def ingredientGetQueryset (db : DB) (user : Nat) : List AttrRow :=
  attrGetQueryset db.ingredients user

/-- Detail lookup for recipes: the framework get_object resolves the
pk inside get_queryset and raises NotFound (404) when no row of the
scoped queryset carries that pk. -/
def recipeGetObject (db : DB) (user : Nat) (id : Nat) : Option Recipe :=
  (recipeGetQueryset db user).find? (fun r => r.id == id)

/-- Detail lookup for tags, same NotFound collapse. -/
def tagGetObject (db : DB) (user : Nat) (id : Nat) : Option AttrRow :=
  (tagGetQueryset db user).find? (fun t => t.id == id)

/-- Detail lookup for ingredients, same NotFound collapse. -/
def ingredientGetObject (db : DB) (user : Nat) (id : Nat) : Option AttrRow :=
  (ingredientGetQueryset db user).find? (fun t => t.id == id)

/-! Nested-entity reconciler.  Modelled from the spec: the serializer
module recipe/serializers.py is not among the provided sources; spec
section 4.2 describes the algorithm word for word. -/

/-- Modelled from the spec: find-or-create scoped to the pair of owner
and name over one attribute table — returns the existing row when one
with that owner and name is present, else creates one with only the
name populated, taking the next primary key.  Result: the new table,
the new counter, and the id of the resolved row. -/
def findOrCreate (rows : List AttrRow) (nextId : Nat) (user : Nat)
    (name : String) : List AttrRow × Nat × Nat :=
  match rows.find? (fun t => t.user == user && t.name == name) with
  | some t => (rows, nextId, t.id)
  | none => (rows ++ [⟨nextId, user, name⟩], nextId + 1, nextId)

/-- Modelled from the spec: resolve every name of a submitted list in
order through find-or-create, threading the table state.  Result: the
new table, the new counter, and the resolved ids in input order. -/
def resolveList (rows : List AttrRow) (nextId : Nat) (user : Nat) :
    List String → List AttrRow × Nat × List Nat
  | [] => (rows, nextId, [])
  | n :: rest =>
    let s := findOrCreate rows nextId user n
    let t := resolveList s.1 s.2.1 user rest
    (t.1, t.2.1, s.2.2 :: t.2.2)

/-- Modelled from the spec: the reconciler step of the recipe
serializer for the tags relation, acting on the Tag table of the
database. -/
def tagsResolve (db : DB) (user : Nat) (names : List String) : DB × List Nat :=
  let t := resolveList db.tags db.nextTagId user names
  ({ db with tags := t.1, nextTagId := t.2.1 }, t.2.2)

/-- Modelled from the spec: the reconciler step of the recipe
serializer for the ingredients relation, acting on the Ingredient
table of the database. -/
def ingredientsResolve (db : DB) (user : Nat) (names : List String) : DB × List Nat :=
  let t := resolveList db.ingredients db.nextIngredientId user names
  ({ db with ingredients := t.1, nextIngredientId := t.2.1 }, t.2.2)

/-- Wrapper of find-or-create on the Tag table, used to state the
per-item reconciliation claims. -/
def tagGetOrCreate (db : DB) (user : Nat) (name : String) : DB × Nat :=
  let s := findOrCreate db.tags db.nextTagId user name
  ({ db with tags := s.1, nextTagId := s.2.1 }, s.2.2)

/-- Wrapper of find-or-create on the Ingredient table. -/
def ingredientGetOrCreate (db : DB) (user : Nat) (name : String) : DB × Nat :=
  let s := findOrCreate db.ingredients db.nextIngredientId user name
  ({ db with ingredients := s.1, nextIngredientId := s.2.1 }, s.2.2)

/-! Recipe write operations. -/

/-- Validated input of the recipe serializer.  A `none` field is a key
absent from the request body; the tags and ingredients keys carry
lists of names; the user key is accepted by the API surface and then
dropped by the serializer (the owner field is read-only, spec section
4.1). -/
structure RecipeInput where
  title : Option String
  time_minutes : Option Nat
  price : Option Int
  description : Option String
  link : Option String
  user : Option Nat
  tags : Option (List String)
  ingredients : Option (List String)
deriving DecidableEq

/-- Create, from RecipeViewSet.perform_create together with the
serializer create modelled from the spec: the owner is forced to the
caller regardless of any owner field supplied in input; each supplied
relation list is reconciled and the association set becomes the
de-duplicated resolved ids; an absent relation key yields an empty
association on the new recipe. -/
def recipeCreate (db : DB) (user : Nat) (input : RecipeInput) : DB × Recipe :=
  let tr := match input.tags with
    | none => (db, [])
    | some ns => tagsResolve db user ns
  let ir := match input.ingredients with
    | none => (tr.1, [])
    | some ns => ingredientsResolve tr.1 user ns
  let r : Recipe :=
    ⟨ir.1.nextRecipeId, user, input.title.getD "", input.time_minutes.getD 0,
     input.price.getD 0, input.description.getD "", input.link.getD "",
     none, tr.2.dedup, ir.2.dedup⟩
  ({ ir.1 with recipes := ir.1.recipes ++ [r], nextRecipeId := ir.1.nextRecipeId + 1 }, r)

/-- Update of a fetched recipe, modelled from the spec: scalar fields
present in the input are overwritten, the owner field is silently
dropped, and for each relation list present in the input the
association is replaced entirely by the de-duplicated resolved set —
an absent relation key leaves the association untouched. -/
def applyRecipeUpdate (db : DB) (user : Nat) (r : Recipe) (input : RecipeInput) :
    DB × Recipe :=
  let tr := match input.tags with
    | none => (db, r.tags)
    | some ns =>
      let q := tagsResolve db user ns
      (q.1, q.2.dedup)
  let ir := match input.ingredients with
    | none => (tr.1, r.ingredients)
    | some ns =>
      let q := ingredientsResolve tr.1 user ns
      (q.1, q.2.dedup)
  let r2 : Recipe :=
    ⟨r.id, r.user, input.title.getD r.title, input.time_minutes.getD r.time_minutes,
     input.price.getD r.price, input.description.getD r.description,
     input.link.getD r.link, r.image, tr.2, ir.2⟩
  ({ ir.1 with recipes := ir.1.recipes.map (fun x => if x.id == r.id then r2 else x) }, r2)

/-- PATCH or PUT on the recipe detail route: resolve the pk through
the owner-scoped queryset — NotFound when absent — then apply the
update. -/
def recipeUpdate (db : DB) (user : Nat) (id : Nat) (input : RecipeInput) :
    Option (DB × Recipe) :=
  match recipeGetObject db user id with
  | none => none
  | some r => some (applyRecipeUpdate db user r input)

/-- DELETE on the recipe detail route: NotFound when the pk is not in
the owner-scoped queryset, else the row is removed. -/
def recipeDelete (db : DB) (user : Nat) (id : Nat) : Option DB :=
  match recipeGetObject db user id with
  | none => none
  | some r => some { db with recipes := db.recipes.filter (fun x => !(x.id == r.id)) }

/-- RecipeViewSet.upload_image: fetch the recipe through get_object,
dispatch to the image serializer (restricted to the image field, per
get_serializer_class), save and answer 200 when the payload is valid,
else answer 400 without saving.  The decodability check itself is the
framework image field; a payload is modelled as `some` image data or
`none` for an undecodable payload.  The result is the new database
state and the HTTP status. -/
def uploadImage (db : DB) (user : Nat) (id : Nat) (payload : Option String) :
    DB × Nat :=
  match recipeGetObject db user id with
  | none => (db, 404)
  | some r =>
    match payload with
    | some img =>
      let r2 : Recipe := { r with image := some img }
      ({ db with recipes := db.recipes.map (fun x => if x.id == r.id then r2 else x) }, 200)
    | none => (db, 400)

/-! Tag and ingredient write operations (list, update, destroy are the
only mixins of BaseRecipeAttributeViewSet). -/

/-- PATCH or PUT on the tag detail route: the serializer exposes the
name field; the owner-scoped lookup yields NotFound across owners. -/
def tagUpdate (db : DB) (user : Nat) (id : Nat) (newName : String) :
    Option (DB × AttrRow) :=
  match tagGetObject db user id with
  | none => none
  | some t =>
    let t2 : AttrRow := ⟨t.id, t.user, newName⟩
    some ({ db with tags := db.tags.map (fun x => if x.id == t.id then t2 else x) }, t2)

/-- DELETE on the tag detail route: removes the row and, by the
many-to-many cascade, its membership in every recipe association
set. -/
def tagDelete (db : DB) (user : Nat) (id : Nat) : Option DB :=
  match tagGetObject db user id with
  | none => none
  | some t =>
    some { db with
      tags := db.tags.filter (fun x => !(x.id == t.id)),
      recipes := db.recipes.map (fun r => { r with tags := r.tags.filter (fun x => !(x == t.id)) }) }

/-- PATCH or PUT on the ingredient detail route. -/
def ingredientUpdate (db : DB) (user : Nat) (id : Nat) (newName : String) :
    Option (DB × AttrRow) :=
  match ingredientGetObject db user id with
  | none => none
  | some t =>
    let t2 : AttrRow := ⟨t.id, t.user, newName⟩
    some ({ db with ingredients := db.ingredients.map (fun x => if x.id == t.id then t2 else x) }, t2)

/-- DELETE on the ingredient detail route. -/
def ingredientDelete (db : DB) (user : Nat) (id : Nat) : Option DB :=
  match ingredientGetObject db user id with
  | none => none
  | some t =>
    some { db with
      ingredients := db.ingredients.filter (fun x => !(x.id == t.id)),
      recipes := db.recipes.map (fun r => { r with ingredients := r.ingredients.filter (fun x => !(x == t.id)) }) }

/-! Routing model of the attribute viewsets, for the surface claim:
which viewset actions exist follows from the mixin list of
BaseRecipeAttributeViewSet in views.py, and the method-to-action map
of the detail and collection routes is the standard router
convention. -/

inductive HttpMethod where
  | get
  | post
  | put
  | patch
  | delete
deriving DecidableEq

inductive ViewAction where
  | list
  | create
  | retrieve
  | update
  | patchUpdate
  | destroy
deriving DecidableEq

/-- Actions of BaseRecipeAttributeViewSet, as composed in views.py:
ListModelMixin contributes list, UpdateModelMixin contributes update
and partial update, DestroyModelMixin contributes destroy; no create
mixin and no retrieve mixin are mixed in. -/
def baseRecipeAttributeActions : List ViewAction :=
  [ViewAction.list, ViewAction.update, ViewAction.patchUpdate, ViewAction.destroy]

/-- Router map of the detail route (the path carrying an id). -/
def detailAction : HttpMethod → Option ViewAction
  | HttpMethod.get => some ViewAction.retrieve
  | HttpMethod.put => some ViewAction.update
  | HttpMethod.patch => some ViewAction.patchUpdate
  | HttpMethod.delete => some ViewAction.destroy
  | HttpMethod.post => none

/-- Router map of the collection route. -/
def collectionAction : HttpMethod → Option ViewAction
  | HttpMethod.get => some ViewAction.list
  | HttpMethod.post => some ViewAction.create
  | _ => none

/-- A method is served on the detail route of the tag and ingredient
viewsets exactly when it maps to an action the mixins provide. -/
def supportedOnDetail (m : HttpMethod) : Bool :=
  match detailAction m with
  | some a => baseRecipeAttributeActions.contains a
  | none => false

/-- A method is served on the collection route of the tag and
ingredient viewsets exactly when it maps to an action the mixins
provide. -/
def supportedOnCollection (m : HttpMethod) : Bool :=
  match collectionAction m with
  | some a => baseRecipeAttributeActions.contains a
  | none => false

/-- Removal of duplicates from a name list keeping the first
occurrence of every name, used to state the de-duplication claim. -/
def dedupFirst : List String → List String
  | [] => []
  | n :: rest => n :: dedupFirst (rest.filter (fun m => !(m == n)))
termination_by l => l.length
decreasing_by
  simp only [List.length_cons]
  exact Nat.lt_succ_of_le (List.length_filter_le _ _)

/-! Concrete sample data, used by the evaluation corollaries. -/

def sampleTagA : AttrRow := ⟨0, 1, "Vietnamese"⟩

def sampleTagB : AttrRow := ⟨1, 2, "Thai"⟩

def sampleIngA : AttrRow := ⟨0, 1, "Prawn"⟩

def sampleRecipeA : Recipe :=
  ⟨0, 1, "Sample recipe", 22, 525, "Sample description", "sample-link", none, [0], [0]⟩

def sampleDB : DB := ⟨[sampleRecipeA], [sampleTagA, sampleTagB], [sampleIngA], 1, 2, 1⟩

def emptyDB : DB := ⟨[], [], [], 0, 0, 0⟩

def inputUserPatch : RecipeInput := ⟨none, none, none, none, none, some 99, none, none⟩

def inputRelationsPatch : RecipeInput :=
  ⟨none, none, none, none, none, none, some ["Thai"], some ["Noodles"]⟩

def inputThaiTwice : RecipeInput :=
  ⟨some "Thai Prawn Curry", some 10, some 250, none, none, none,
   some ["Thai", "Thai"], none⟩

/-! Supporting lemmas about the querysets. -/

theorem mem_attrGetQueryset {rows : List AttrRow} {u : Nat} {x : AttrRow} :
    x ∈ attrGetQueryset rows u ↔ x ∈ rows ∧ x.user = u := by
  unfold attrGetQueryset
  rw [(List.perm_insertionSort attrLe _).mem_iff, List.mem_filter]
  simp

theorem mem_recipeGetQueryset {db : DB} {u : Nat} {x : Recipe} :
    x ∈ recipeGetQueryset db u ↔ x ∈ db.recipes ∧ x.user = u := by
  unfold recipeGetQueryset
  rw [(List.perm_insertionSort recipeLe _).mem_iff, List.mem_filter]
  simp

theorem recipeGetObject_some {db : DB} {u id : Nat} {x : Recipe}
    (h : recipeGetObject db u id = some x) :
    x ∈ db.recipes ∧ x.user = u ∧ x.id = id := by
  have hm := List.mem_of_find?_eq_some h
  have hp := List.find?_some h
  rw [mem_recipeGetQueryset] at hm
  simp only [beq_iff_eq] at hp
  exact ⟨hm.1, hm.2, hp⟩

theorem attrFind_some {rows : List AttrRow} {u id : Nat} {x : AttrRow}
    (h : (attrGetQueryset rows u).find? (fun t => t.id == id) = some x) :
    x ∈ rows ∧ x.user = u ∧ x.id = id := by
  have hm := List.mem_of_find?_eq_some h
  have hp := List.find?_some h
  rw [mem_attrGetQueryset] at hm
  simp only [beq_iff_eq] at hp
  exact ⟨hm.1, hm.2, hp⟩

theorem recipeGetObject_none {db : DB} {u1 u2 : Nat} {r : Recipe}
    (hnd : (db.recipes.map Recipe.id).Nodup) (hr : r ∈ db.recipes)
    (hu : r.user = u1) (hne : u1 ≠ u2) :
    recipeGetObject db u2 r.id = none := by
  cases h : recipeGetObject db u2 r.id with
  | none => rfl
  | some x =>
    exfalso
    obtain ⟨hx, hxu, hxid⟩ := recipeGetObject_some h
    have hxr : x = r := List.inj_on_of_nodup_map hnd hx hr hxid
    subst hxr
    rw [hu] at hxu
    exact hne hxu

theorem attrGetObject_none {rows : List AttrRow} {u1 u2 : Nat} {t : AttrRow}
    (hnd : (rows.map AttrRow.id).Nodup) (ht : t ∈ rows)
    (hu : t.user = u1) (hne : u1 ≠ u2) :
    (attrGetQueryset rows u2).find? (fun x => x.id == t.id) = none := by
  cases h : (attrGetQueryset rows u2).find? (fun x => x.id == t.id) with
  | none => rfl
  | some x =>
    exfalso
    obtain ⟨hx, hxu, hxid⟩ := attrFind_some h
    have hxr : x = t := List.inj_on_of_nodup_map hnd hx ht hxid
    subst hxr
    rw [hu] at hxu
    exact hne hxu

/-- C1: for every pair of distinct users, a resource created by the
first user never appears in the list or get results of the second
user, and get, update, delete (and image upload) on its id answer
NotFound for the second user, the same answer a nonexistent id
yields. -/
theorem C1_owner_isolation (db : DB) (u1 u2 : Nat) (hne : u1 ≠ u2) (hwf : db.WF) :
    (∀ r ∈ db.recipes, r.user = u1 →
      r ∉ recipeGetQueryset db u2 ∧
      recipeGetObject db u2 r.id = none ∧
      (∀ input, recipeUpdate db u2 r.id input = none) ∧
      recipeDelete db u2 r.id = none ∧
      (∀ payload, uploadImage db u2 r.id payload = (db, 404))) ∧
    (∀ t ∈ db.tags, t.user = u1 →
      t ∉ tagGetQueryset db u2 ∧
      tagGetObject db u2 t.id = none ∧
      (∀ nm, tagUpdate db u2 t.id nm = none) ∧
      tagDelete db u2 t.id = none) ∧
    (∀ t ∈ db.ingredients, t.user = u1 →
      t ∉ ingredientGetQueryset db u2 ∧
      ingredientGetObject db u2 t.id = none ∧
      (∀ nm, ingredientUpdate db u2 t.id nm = none) ∧
      ingredientDelete db u2 t.id = none) := by
  obtain ⟨-, -, -, hndr, hndt, hndi⟩ := hwf
  refine ⟨fun r hr hu => ?_, fun t ht hu => ?_, fun t ht hu => ?_⟩
  · have hget : recipeGetObject db u2 r.id = none :=
      recipeGetObject_none hndr hr hu hne
    refine ⟨?_, hget, ?_, ?_, ?_⟩
    · intro hmem
      rw [mem_recipeGetQueryset] at hmem
      exact hne (hu.symm.trans hmem.2)
    · intro input
      unfold recipeUpdate
      rw [hget]
    · unfold recipeDelete
      rw [hget]
    · intro payload
      unfold uploadImage
      rw [hget]
  · have hget : (attrGetQueryset db.tags u2).find? (fun x => x.id == t.id) = none :=
      attrGetObject_none hndt ht hu hne
    have hget2 : tagGetObject db u2 t.id = none := hget
    refine ⟨?_, hget2, ?_, ?_⟩
    · intro hmem
      rw [show tagGetQueryset db u2 = attrGetQueryset db.tags u2 from rfl,
        mem_attrGetQueryset] at hmem
      exact hne (hu.symm.trans hmem.2)
    · intro nm
      unfold tagUpdate
      rw [hget2]
    · unfold tagDelete
      rw [hget2]
  · have hget : (attrGetQueryset db.ingredients u2).find? (fun x => x.id == t.id) = none :=
      attrGetObject_none hndi ht hu hne
    have hget2 : ingredientGetObject db u2 t.id = none := hget
    refine ⟨?_, hget2, ?_, ?_⟩
    · intro hmem
      rw [show ingredientGetQueryset db u2 = attrGetQueryset db.ingredients u2 from rfl,
        mem_attrGetQueryset] at hmem
      exact hne (hu.symm.trans hmem.2)
    · intro nm
      unfold ingredientUpdate
      rw [hget2]
    · unfold ingredientDelete
      rw [hget2]

/-- Evaluation of the owner-isolation theorem on the sample database:
user 2 cannot see, fetch, update or delete the recipe, tag and
ingredient owned by user 1. -/
theorem C1_owner_isolation_witness :
    recipeGetObject sampleDB 2 sampleRecipeA.id = none ∧
    recipeDelete sampleDB 2 sampleRecipeA.id = none ∧
    tagGetObject sampleDB 2 sampleTagA.id = none ∧
    tagDelete sampleDB 2 sampleTagA.id = none ∧
    ingredientGetObject sampleDB 2 sampleIngA.id = none ∧
    ingredientUpdate sampleDB 2 sampleIngA.id "Milk" = none :=
  ⟨((C1_owner_isolation sampleDB 1 2 (by decide) (by decide)).1 sampleRecipeA
      (by decide) (by decide)).2.1,
   ((C1_owner_isolation sampleDB 1 2 (by decide) (by decide)).1 sampleRecipeA
      (by decide) (by decide)).2.2.2.1,
   ((C1_owner_isolation sampleDB 1 2 (by decide) (by decide)).2.1 sampleTagA
      (by decide) (by decide)).2.1,
   ((C1_owner_isolation sampleDB 1 2 (by decide) (by decide)).2.1 sampleTagA
      (by decide) (by decide)).2.2.2,
   ((C1_owner_isolation sampleDB 1 2 (by decide) (by decide)).2.2 sampleIngA
      (by decide) (by decide)).2.1,
   ((C1_owner_isolation sampleDB 1 2 (by decide) (by decide)).2.2 sampleIngA
      (by decide) (by decide)).2.2.1 "Milk"⟩

/-- C9: every list operation returns exactly the rows of the caller,
recipes in descending id order, tags and ingredients in descending
name order under the code-point comparison. -/
theorem C9_list_ordering (db : DB) (u : Nat) :
    (List.Sorted recipeLe (recipeGetQueryset db u) ∧
      ∀ r, r ∈ recipeGetQueryset db u ↔ r ∈ db.recipes ∧ r.user = u) ∧
    (List.Sorted attrLe (tagGetQueryset db u) ∧
      ∀ t, t ∈ tagGetQueryset db u ↔ t ∈ db.tags ∧ t.user = u) ∧
    (List.Sorted attrLe (ingredientGetQueryset db u) ∧
      ∀ t, t ∈ ingredientGetQueryset db u ↔ t ∈ db.ingredients ∧ t.user = u) := by
  refine ⟨⟨?_, fun r => mem_recipeGetQueryset⟩,
    ⟨?_, fun t => mem_attrGetQueryset⟩,
    ⟨?_, fun t => mem_attrGetQueryset⟩⟩
  · exact List.sorted_insertionSort recipeLe _
  · exact List.sorted_insertionSort attrLe _
  · exact List.sorted_insertionSort attrLe _

/-! Frame facts of the reconciler steps: resolving one relation list
touches only its own table and counter. -/

theorem tagsResolve_frame (db : DB) (u : Nat) (ns : List String) :
    (tagsResolve db u ns).1.ingredients = db.ingredients ∧
    (tagsResolve db u ns).1.nextIngredientId = db.nextIngredientId ∧
    (tagsResolve db u ns).1.recipes = db.recipes ∧
    (tagsResolve db u ns).1.nextRecipeId = db.nextRecipeId :=
  ⟨rfl, rfl, rfl, rfl⟩

theorem ingredientsResolve_frame (db : DB) (u : Nat) (ns : List String) :
    (ingredientsResolve db u ns).1.tags = db.tags ∧
    (ingredientsResolve db u ns).1.nextTagId = db.nextTagId ∧
    (ingredientsResolve db u ns).1.recipes = db.recipes ∧
    (ingredientsResolve db u ns).1.nextRecipeId = db.nextRecipeId :=
  ⟨rfl, rfl, rfl, rfl⟩

theorem ingredientsResolve_congr (db db2 : DB) (u : Nat) (ns : List String)
    (h1 : db.ingredients = db2.ingredients)
    (h2 : db.nextIngredientId = db2.nextIngredientId) :
    (ingredientsResolve db u ns).2 = (ingredientsResolve db2 u ns).2 ∧
    (ingredientsResolve db u ns).1.ingredients = (ingredientsResolve db2 u ns).1.ingredients := by
  unfold ingredientsResolve
  rw [h1, h2]
  exact ⟨rfl, rfl⟩

/-! Characterizations of update and create by cases on the presence of
the relation keys. -/

theorem applyRecipeUpdate_tags_none (db : DB) (u : Nat) (r : Recipe) {input : RecipeInput}
    (ht : input.tags = none) :
    (applyRecipeUpdate db u r input).2.tags = r.tags ∧
    (applyRecipeUpdate db u r input).1.tags = db.tags := by
  obtain ⟨f1, f2, f3, f4, f5, f6, ftags, fings⟩ := input
  have ht2 : ftags = none := ht
  subst ht2
  cases fings with
  | none => exact ⟨rfl, rfl⟩
  | some ns => exact ⟨rfl, (ingredientsResolve_frame db u ns).1⟩

theorem applyRecipeUpdate_ings_none (db : DB) (u : Nat) (r : Recipe) {input : RecipeInput}
    (hi : input.ingredients = none) :
    (applyRecipeUpdate db u r input).2.ingredients = r.ingredients ∧
    (applyRecipeUpdate db u r input).1.ingredients = db.ingredients := by
  obtain ⟨f1, f2, f3, f4, f5, f6, ftags, fings⟩ := input
  have hi2 : fings = none := hi
  subst hi2
  cases ftags with
  | none => exact ⟨rfl, rfl⟩
  | some ns => exact ⟨rfl, (tagsResolve_frame db u ns).1⟩

theorem applyRecipeUpdate_tags_some (db : DB) (u : Nat) (r : Recipe) {input : RecipeInput}
    {ns : List String} (ht : input.tags = some ns) :
    (applyRecipeUpdate db u r input).2.tags = ((tagsResolve db u ns).2).dedup ∧
    (applyRecipeUpdate db u r input).1.tags = (tagsResolve db u ns).1.tags := by
  obtain ⟨f1, f2, f3, f4, f5, f6, ftags, fings⟩ := input
  have ht2 : ftags = some ns := ht
  subst ht2
  cases fings with
  | none => exact ⟨rfl, rfl⟩
  | some ins => exact ⟨rfl, (ingredientsResolve_frame _ u ins).1⟩

theorem applyRecipeUpdate_ings_some (db : DB) (u : Nat) (r : Recipe) {input : RecipeInput}
    {ins : List String} (hi : input.ingredients = some ins) :
    (applyRecipeUpdate db u r input).2.ingredients = ((ingredientsResolve db u ins).2).dedup ∧
    (applyRecipeUpdate db u r input).1.ingredients = (ingredientsResolve db u ins).1.ingredients := by
  obtain ⟨f1, f2, f3, f4, f5, f6, ftags, fings⟩ := input
  have hi2 : fings = some ins := hi
  subst hi2
  cases ftags with
  | none => exact ⟨rfl, rfl⟩
  | some tns =>
    have hfr := tagsResolve_frame db u tns
    have hc := ingredientsResolve_congr (tagsResolve db u tns).1 db u ins hfr.1 hfr.2.1
    exact ⟨by rw [show (applyRecipeUpdate db u r ⟨f1, f2, f3, f4, f5, f6, some tns, some ins⟩).2.ingredients =
        ((ingredientsResolve (tagsResolve db u tns).1 u ins).2).dedup from rfl, hc.1],
      by rw [show (applyRecipeUpdate db u r ⟨f1, f2, f3, f4, f5, f6, some tns, some ins⟩).1.ingredients =
        (ingredientsResolve (tagsResolve db u tns).1 u ins).1.ingredients from rfl, hc.2]⟩

theorem recipeCreate_tags_some {db : DB} {u : Nat} {input : RecipeInput}
    {ns : List String} (ht : input.tags = some ns) :
    (recipeCreate db u input).2.tags = ((tagsResolve db u ns).2).dedup ∧
    (recipeCreate db u input).1.tags = (tagsResolve db u ns).1.tags := by
  obtain ⟨f1, f2, f3, f4, f5, f6, ftags, fings⟩ := input
  have ht2 : ftags = some ns := ht
  subst ht2
  cases fings with
  | none => exact ⟨rfl, rfl⟩
  | some ins => exact ⟨rfl, (ingredientsResolve_frame _ u ins).1⟩

theorem recipeCreate_ings_some {db : DB} {u : Nat} {input : RecipeInput}
    {ins : List String} (hi : input.ingredients = some ins) :
    (recipeCreate db u input).2.ingredients = ((ingredientsResolve db u ins).2).dedup ∧
    (recipeCreate db u input).1.ingredients = (ingredientsResolve db u ins).1.ingredients := by
  obtain ⟨f1, f2, f3, f4, f5, f6, ftags, fings⟩ := input
  have hi2 : fings = some ins := hi
  subst hi2
  cases ftags with
  | none => exact ⟨rfl, rfl⟩
  | some tns =>
    have hfr := tagsResolve_frame db u tns
    have hc := ingredientsResolve_congr (tagsResolve db u tns).1 db u ins hfr.1 hfr.2.1
    exact ⟨by rw [show (recipeCreate db u ⟨f1, f2, f3, f4, f5, f6, some tns, some ins⟩).2.ingredients =
        ((ingredientsResolve (tagsResolve db u tns).1 u ins).2).dedup from rfl, hc.1],
      by rw [show (recipeCreate db u ⟨f1, f2, f3, f4, f5, f6, some tns, some ins⟩).1.ingredients =
        (ingredientsResolve (tagsResolve db u tns).1 u ins).1.ingredients from rfl, hc.2]⟩

/-- C3: the owner of a recipe equals the authenticated creator and is
immutable: create forces the owner to the caller whatever owner field
the input carries, and an update containing a user field succeeds
while leaving the owner untouched. -/
theorem C3_owner_forced (db : DB) (u : Nat) (input : RecipeInput) :
    ((recipeCreate db u input).2.user = u) ∧
    (∀ id r, recipeGetObject db u id = some r →
      recipeUpdate db u id input = some (applyRecipeUpdate db u r input) ∧
      (applyRecipeUpdate db u r input).2.user = r.user) := by
  refine ⟨rfl, fun id r h => ?_⟩
  constructor
  · unfold recipeUpdate
    rw [h]
  · rfl

/-- Evaluation of the owner-immutability theorem: a patch carrying a
user field of 99 succeeds on the sample recipe and its owner stays
user 1. -/
theorem C3_owner_forced_witness :
    (recipeCreate sampleDB 1 inputUserPatch).2.user = 1 ∧
    recipeUpdate sampleDB 1 0 inputUserPatch =
      some (applyRecipeUpdate sampleDB 1 sampleRecipeA inputUserPatch) ∧
    (applyRecipeUpdate sampleDB 1 sampleRecipeA inputUserPatch).2.user = sampleRecipeA.user :=
  ⟨(C3_owner_forced sampleDB 1 inputUserPatch).1,
   ((C3_owner_forced sampleDB 1 inputUserPatch).2 0 sampleRecipeA (by decide)).1,
   ((C3_owner_forced sampleDB 1 inputUserPatch).2 0 sampleRecipeA (by decide)).2⟩

/-- C6: an absent relation key is distinct from an empty list — when
the tags or ingredients key is missing from an update input, the
association of that relation and its table are left unchanged. -/
theorem C6_omitted_relation_frame (db : DB) (u : Nat) (input : RecipeInput) :
    (input.tags = none →
      ∀ id r db2 r2, recipeGetObject db u id = some r →
        recipeUpdate db u id input = some (db2, r2) →
        r2.tags = r.tags ∧ db2.tags = db.tags) ∧
    (input.ingredients = none →
      ∀ id r db2 r2, recipeGetObject db u id = some r →
        recipeUpdate db u id input = some (db2, r2) →
        r2.ingredients = r.ingredients ∧ db2.ingredients = db.ingredients) := by
  constructor
  · intro ht id r db2 r2 hget hupd
    unfold recipeUpdate at hupd
    rw [hget] at hupd
    have hpair : applyRecipeUpdate db u r input = (db2, r2) := by
      injection hupd
    have hch := applyRecipeUpdate_tags_none db u r ht
    rw [hpair] at hch
    exact ⟨hch.1, hch.2⟩
  · intro hi id r db2 r2 hget hupd
    unfold recipeUpdate at hupd
    rw [hget] at hupd
    have hpair : applyRecipeUpdate db u r input = (db2, r2) := by
      injection hupd
    have hch := applyRecipeUpdate_ings_none db u r hi
    rw [hpair] at hch
    exact ⟨hch.1, hch.2⟩

/-- Evaluation of the omitted-key frame theorem: a patch carrying only
a user field leaves the tag and ingredient associations of the sample
recipe and both tables unchanged. -/
theorem C6_omitted_relation_frame_witness :
    (applyRecipeUpdate sampleDB 1 sampleRecipeA inputUserPatch).2.tags = sampleRecipeA.tags ∧
    (applyRecipeUpdate sampleDB 1 sampleRecipeA inputUserPatch).1.tags = sampleDB.tags ∧
    (applyRecipeUpdate sampleDB 1 sampleRecipeA inputUserPatch).2.ingredients = sampleRecipeA.ingredients ∧
    (applyRecipeUpdate sampleDB 1 sampleRecipeA inputUserPatch).1.ingredients = sampleDB.ingredients :=
  ⟨((C6_omitted_relation_frame sampleDB 1 inputUserPatch).1 (by decide) 0 sampleRecipeA
      (applyRecipeUpdate sampleDB 1 sampleRecipeA inputUserPatch).1
      (applyRecipeUpdate sampleDB 1 sampleRecipeA inputUserPatch).2
      (by decide) (by rw [show recipeUpdate sampleDB 1 0 inputUserPatch =
        some (applyRecipeUpdate sampleDB 1 sampleRecipeA inputUserPatch) from rfl])).1,
   ((C6_omitted_relation_frame sampleDB 1 inputUserPatch).1 (by decide) 0 sampleRecipeA
      (applyRecipeUpdate sampleDB 1 sampleRecipeA inputUserPatch).1
      (applyRecipeUpdate sampleDB 1 sampleRecipeA inputUserPatch).2
      (by decide) (by rw [show recipeUpdate sampleDB 1 0 inputUserPatch =
        some (applyRecipeUpdate sampleDB 1 sampleRecipeA inputUserPatch) from rfl])).2,
   ((C6_omitted_relation_frame sampleDB 1 inputUserPatch).2 (by decide) 0 sampleRecipeA
      (applyRecipeUpdate sampleDB 1 sampleRecipeA inputUserPatch).1
      (applyRecipeUpdate sampleDB 1 sampleRecipeA inputUserPatch).2
      (by decide) (by rw [show recipeUpdate sampleDB 1 0 inputUserPatch =
        some (applyRecipeUpdate sampleDB 1 sampleRecipeA inputUserPatch) from rfl])).1,
   ((C6_omitted_relation_frame sampleDB 1 inputUserPatch).2 (by decide) 0 sampleRecipeA
      (applyRecipeUpdate sampleDB 1 sampleRecipeA inputUserPatch).1
      (applyRecipeUpdate sampleDB 1 sampleRecipeA inputUserPatch).2
      (by decide) (by rw [show recipeUpdate sampleDB 1 0 inputUserPatch =
        some (applyRecipeUpdate sampleDB 1 sampleRecipeA inputUserPatch) from rfl])).2⟩

/-- C7: image upload on an owned recipe answers 200 with the updated
row when the payload decodes, and answers 400 on an undecodable
payload without mutating anything — the database, and so any prior
image reference, is returned unchanged. -/
theorem C7_upload_image (db : DB) (u id : Nat) (r : Recipe)
    (h : recipeGetObject db u id = some r) :
    uploadImage db u id none = (db, 400) ∧
    (∀ img, (uploadImage db u id (some img)).2 = 200 ∧
      (uploadImage db u id (some img)).1.recipes =
        db.recipes.map (fun x => if x.id == r.id then { r with image := some img } else x) ∧
      ({ r with image := some img } : Recipe) ∈ (uploadImage db u id (some img)).1.recipes) := by
  constructor
  · unfold uploadImage
    rw [h]
  · intro img
    unfold uploadImage
    rw [h]
    refine ⟨rfl, rfl, ?_⟩
    have hr : r ∈ db.recipes := (recipeGetObject_some h).1
    have hfr : ({ r with image := some img } : Recipe) =
        (fun x => if x.id == r.id then { r with image := some img } else x) r := by
      simp
    rw [hfr]
    exact List.mem_map_of_mem _ hr

/-- Evaluation of the upload theorem on the sample database: a bad
payload yields 400 leaving the state intact, a good payload yields
200 and stores the image on the recipe. -/
theorem C7_upload_image_witness :
    uploadImage sampleDB 1 0 none = (sampleDB, 400) ∧
    (uploadImage sampleDB 1 0 (some "img-bytes")).2 = 200 ∧
    ({ sampleRecipeA with image := some "img-bytes" } : Recipe) ∈
      (uploadImage sampleDB 1 0 (some "img-bytes")).1.recipes :=
  ⟨(C7_upload_image sampleDB 1 0 sampleRecipeA (by decide)).1,
   ((C7_upload_image sampleDB 1 0 sampleRecipeA (by decide)).2 "img-bytes").1,
   ((C7_upload_image sampleDB 1 0 sampleRecipeA (by decide)).2 "img-bytes").2.2⟩

/-- C10: a successful image upload modifies only the image field of
the target recipe — every other recipe row is untouched, the target
keeps its owner, scalar fields and both association sets, and the tag
and ingredient tables are unchanged. -/
theorem C10_upload_only_image (db : DB) (u id : Nat) (r : Recipe) (img : String)
    (hwf : db.WF) (h : recipeGetObject db u id = some r) :
    (uploadImage db u id (some img)).1.tags = db.tags ∧
    (uploadImage db u id (some img)).1.ingredients = db.ingredients ∧
    (∀ x ∈ db.recipes, x.id ≠ r.id → x ∈ (uploadImage db u id (some img)).1.recipes) ∧
    (∀ x ∈ db.recipes, x.id = r.id →
      ({ r with image := some img } : Recipe) ∈ (uploadImage db u id (some img)).1.recipes ∧
      r.user = x.user ∧ r.title = x.title ∧ r.time_minutes = x.time_minutes ∧
      r.price = x.price ∧ r.description = x.description ∧ r.link = x.link ∧
      r.tags = x.tags ∧ r.ingredients = x.ingredients) := by
  obtain ⟨-, -, -, hndr, -, -⟩ := hwf
  have hr : r ∈ db.recipes := (recipeGetObject_some h).1
  refine ⟨?_, ?_, ?_, ?_⟩
  · unfold uploadImage
    rw [h]
  · unfold uploadImage
    rw [h]
  · intro x hx hne
    unfold uploadImage
    rw [h]
    have hfx : (fun y => if y.id == r.id then { r with image := some img } else y) x = x := by
      simp [hne]
    have hmem := List.mem_map_of_mem
      (fun y => if y.id == r.id then { r with image := some img } else y) hx
    rw [hfx] at hmem
    exact hmem
  · intro x hx hid
    have hxr : x = r := List.inj_on_of_nodup_map hndr hx hr hid
    subst hxr
    refine ⟨?_, rfl, rfl, rfl, rfl, rfl, rfl, rfl, rfl⟩
    unfold uploadImage
    rw [h]
    have hfr : ({ x with image := some img } : Recipe) =
        (fun y => if y.id == x.id then { x with image := some img } else y) x := by
      simp
    rw [hfr]
    exact List.mem_map_of_mem _ hx

/-- Evaluation of the upload frame theorem on the sample database:
after a successful upload the tables are unchanged and the updated
row keeps every field but the image. -/
theorem C10_upload_only_image_witness :
    (uploadImage sampleDB 1 0 (some "img-bytes")).1.tags = sampleDB.tags ∧
    (uploadImage sampleDB 1 0 (some "img-bytes")).1.ingredients = sampleDB.ingredients ∧
    ({ sampleRecipeA with image := some "img-bytes" } : Recipe) ∈
      (uploadImage sampleDB 1 0 (some "img-bytes")).1.recipes ∧
    sampleRecipeA.tags = sampleRecipeA.tags :=
  ⟨(C10_upload_only_image sampleDB 1 0 sampleRecipeA "img-bytes" (by decide) (by decide)).1,
   (C10_upload_only_image sampleDB 1 0 sampleRecipeA "img-bytes" (by decide) (by decide)).2.1,
   ((C10_upload_only_image sampleDB 1 0 sampleRecipeA "img-bytes" (by decide) (by decide)).2.2.2
      sampleRecipeA (by decide) (by decide)).1,
   ((C10_upload_only_image sampleDB 1 0 sampleRecipeA "img-bytes" (by decide) (by decide)).2.2.2
      sampleRecipeA (by decide) (by decide)).2.2.2.2.2.2.2.1⟩

/-! Equations and basic facts of the find-or-create resolver. -/

theorem resolveList_nil (rows : List AttrRow) (nid u : Nat) :
    resolveList rows nid u [] = (rows, nid, []) := rfl

theorem resolveList_cons (rows : List AttrRow) (nid u : Nat) (n : String)
    (rest : List String) :
    resolveList rows nid u (n :: rest) =
      ((resolveList (findOrCreate rows nid u n).1 (findOrCreate rows nid u n).2.1 u rest).1,
       (resolveList (findOrCreate rows nid u n).1 (findOrCreate rows nid u n).2.1 u rest).2.1,
       (findOrCreate rows nid u n).2.2 ::
         (resolveList (findOrCreate rows nid u n).1 (findOrCreate rows nid u n).2.1 u rest).2.2) :=
  rfl

theorem findOrCreate_found {rows : List AttrRow} {nid u : Nat} {n : String} {t : AttrRow}
    (h : rows.find? (fun x => x.user == u && x.name == n) = some t) :
    findOrCreate rows nid u n = (rows, nid, t.id) := by
  unfold findOrCreate
  rw [h]

theorem findOrCreate_new {rows : List AttrRow} {nid u : Nat} {n : String}
    (h : rows.find? (fun x => x.user == u && x.name == n) = none) :
    findOrCreate rows nid u n = (rows ++ [⟨nid, u, n⟩], nid + 1, nid) := by
  unfold findOrCreate
  rw [h]

theorem find?_append_left {p : AttrRow → Bool} {l1 l2 : List AttrRow} {t : AttrRow}
    (h : l1.find? p = some t) : (l1 ++ l2).find? p = some t := by
  rw [List.find?_append, h]
  rfl

theorem findOrCreate_match (rows : List AttrRow) (nid u : Nat) (n : String) :
    ∃ t, ((findOrCreate rows nid u n).1).find? (fun x => x.user == u && x.name == n) = some t ∧
      t.id = (findOrCreate rows nid u n).2.2 := by
  cases h : rows.find? (fun x => x.user == u && x.name == n) with
  | some t =>
    rw [findOrCreate_found h]
    exact ⟨t, h, rfl⟩
  | none =>
    rw [findOrCreate_new h]
    refine ⟨⟨nid, u, n⟩, ?_, rfl⟩
    rw [List.find?_append, h]
    simp [List.find?]

theorem resolveList_append (u : Nat) (names : List String) :
    ∀ (rows : List AttrRow) (nid : Nat),
      ∃ ext, (resolveList rows nid u names).1 = rows ++ ext := by
  induction names with
  | nil =>
    intro rows nid
    exact ⟨[], by simp [resolveList_nil]⟩
  | cons n rest ih =>
    intro rows nid
    cases hf : rows.find? (fun x => x.user == u && x.name == n) with
    | some t =>
      rw [resolveList_cons, findOrCreate_found hf]
      exact ih rows nid
    | none =>
      rw [resolveList_cons, findOrCreate_new hf]
      obtain ⟨ext, he⟩ := ih (rows ++ [⟨nid, u, n⟩]) (nid + 1)
      exact ⟨⟨nid, u, n⟩ :: ext, by dsimp only; rw [he]; simp⟩

theorem tagsResolve_mono (db : DB) (u : Nat) (ns : List String) :
    ∀ t ∈ db.tags, t ∈ (tagsResolve db u ns).1.tags := by
  intro t ht
  obtain ⟨ext, he⟩ := resolveList_append u ns db.tags db.nextTagId
  show t ∈ (resolveList db.tags db.nextTagId u ns).1
  rw [he]
  exact List.mem_append_left _ ht

theorem ingredientsResolve_mono (db : DB) (u : Nat) (ns : List String) :
    ∀ t ∈ db.ingredients, t ∈ (ingredientsResolve db u ns).1.ingredients := by
  intro t ht
  obtain ⟨ext, he⟩ := resolveList_append u ns db.ingredients db.nextIngredientId
  show t ∈ (resolveList db.ingredients db.nextIngredientId u ns).1
  rw [he]
  exact List.mem_append_left _ ht

/-- C4: resolution of a name is a find-or-create scoped to owner and
name — a row with that name owned by the same user is reused with no
new row created, otherwise a fresh row is appended; a row of the same
name under a different owner is never the one resolved. -/
theorem C4_resolution_scoped (db : DB) (u : Nat) (name : String) (hwf : db.WF) :
    ((∀ t, db.tags.find? (fun x => x.user == u && x.name == name) = some t →
        tagGetOrCreate db u name = (db, t.id)) ∧
      (db.tags.find? (fun x => x.user == u && x.name == name) = none →
        (tagGetOrCreate db u name).1.tags = db.tags ++ [⟨db.nextTagId, u, name⟩] ∧
        (tagGetOrCreate db u name).2 = db.nextTagId) ∧
      (∀ t ∈ db.tags, t.user ≠ u → (tagGetOrCreate db u name).2 ≠ t.id)) ∧
    ((∀ t, db.ingredients.find? (fun x => x.user == u && x.name == name) = some t →
        ingredientGetOrCreate db u name = (db, t.id)) ∧
      (db.ingredients.find? (fun x => x.user == u && x.name == name) = none →
        (ingredientGetOrCreate db u name).1.ingredients =
          db.ingredients ++ [⟨db.nextIngredientId, u, name⟩] ∧
        (ingredientGetOrCreate db u name).2 = db.nextIngredientId) ∧
      (∀ t ∈ db.ingredients, t.user ≠ u → (ingredientGetOrCreate db u name).2 ≠ t.id)) := by
  obtain ⟨-, hltT, hltI, -, hndT, hndI⟩ := hwf
  constructor
  · refine ⟨fun t h => ?_, fun h => ?_, fun t ht hne => ?_⟩
    · unfold tagGetOrCreate
      rw [findOrCreate_found h]
    · unfold tagGetOrCreate
      rw [findOrCreate_new h]
      exact ⟨rfl, rfl⟩
    · show (findOrCreate db.tags db.nextTagId u name).2.2 ≠ t.id
      cases hf : db.tags.find? (fun x => x.user == u && x.name == name) with
      | some x =>
        rw [findOrCreate_found hf]
        have hp := List.find?_some hf
        have hx := List.mem_of_find?_eq_some hf
        simp only [Bool.and_eq_true, beq_iff_eq] at hp
        intro heq
        exact hne (List.inj_on_of_nodup_map hndT ht hx heq.symm ▸ hp.1)
      | none =>
        rw [findOrCreate_new hf]
        have hlt := hltT t ht
        dsimp only
        intro heq
        omega
  · refine ⟨fun t h => ?_, fun h => ?_, fun t ht hne => ?_⟩
    · unfold ingredientGetOrCreate
      rw [findOrCreate_found h]
    · unfold ingredientGetOrCreate
      rw [findOrCreate_new h]
      exact ⟨rfl, rfl⟩
    · show (findOrCreate db.ingredients db.nextIngredientId u name).2.2 ≠ t.id
      cases hf : db.ingredients.find? (fun x => x.user == u && x.name == name) with
      | some x =>
        rw [findOrCreate_found hf]
        have hp := List.find?_some hf
        have hx := List.mem_of_find?_eq_some hf
        simp only [Bool.and_eq_true, beq_iff_eq] at hp
        intro heq
        exact hne (List.inj_on_of_nodup_map hndI ht hx heq.symm ▸ hp.1)
      | none =>
        rw [findOrCreate_new hf]
        have hlt := hltI t ht
        dsimp only
        intro heq
        omega

/-- Evaluation of the find-or-create theorem on the sample database:
resolving Vietnamese for user 1 reuses the existing row with no
mutation, and resolving Thai for user 1 never yields the Thai row of
user 2. -/
theorem C4_resolution_scoped_witness :
    tagGetOrCreate sampleDB 1 "Vietnamese" = (sampleDB, 0) ∧
    (tagGetOrCreate sampleDB 1 "Thai").2 ≠ sampleTagB.id ∧
    ingredientGetOrCreate sampleDB 1 "Prawn" = (sampleDB, 0) :=
  ⟨(C4_resolution_scoped sampleDB 1 "Vietnamese" (by decide)).1.1 sampleTagA (by decide),
   (C4_resolution_scoped sampleDB 1 "Thai" (by decide)).1.2.2 sampleTagB (by decide) (by decide),
   (C4_resolution_scoped sampleDB 1 "Prawn" (by decide)).2.1 sampleIngA (by decide)⟩

/-- C8 as frozen is refuted at the concrete input GET on the detail
route: BaseRecipeAttributeViewSet mixes in no retrieve action, so GET
on tags-id and ingredients-id is not served. -/
theorem C8_counterexample : supportedOnDetail HttpMethod.get = false := by
  decide

/-- C8 amended: the tag and ingredient detail routes serve PUT, PATCH
and DELETE only — GET there (retrieve) is not exposed; the collection
route serves GET (list) and no POST, so there is no direct create
endpoint, and the update and delete operations never enlarge the
tables: tag and ingredient rows come into existence only through the
recipe reconciler. -/
theorem C8_attribute_surface :
    (supportedOnDetail HttpMethod.put = true ∧
      supportedOnDetail HttpMethod.patch = true ∧
      supportedOnDetail HttpMethod.delete = true ∧
      supportedOnDetail HttpMethod.get = false ∧
      supportedOnDetail HttpMethod.post = false) ∧
    (supportedOnCollection HttpMethod.get = true ∧
      supportedOnCollection HttpMethod.post = false ∧
      collectionAction HttpMethod.post = some ViewAction.create ∧
      supportedOnCollection HttpMethod.put = false ∧
      supportedOnCollection HttpMethod.patch = false ∧
      supportedOnCollection HttpMethod.delete = false) ∧
    (∀ db u id nm db2 t2, tagUpdate db u id nm = some (db2, t2) →
      db2.tags.length = db.tags.length) ∧
    (∀ db u id nm db2 t2, ingredientUpdate db u id nm = some (db2, t2) →
      db2.ingredients.length = db.ingredients.length) ∧
    (∀ db u id db2, tagDelete db u id = some db2 →
      db2.tags.length ≤ db.tags.length) ∧
    (∀ db u id db2, ingredientDelete db u id = some db2 →
      db2.ingredients.length ≤ db.ingredients.length) := by
  refine ⟨by decide, by decide, ?_, ?_, ?_, ?_⟩
  · intro db u id nm db2 t2 h
    unfold tagUpdate at h
    cases hobj : tagGetObject db u id with
    | none => rw [hobj] at h; exact absurd h (by simp)
    | some t =>
      rw [hobj] at h
      have hdb : ({ db with tags := db.tags.map (fun x => if x.id == t.id then (⟨t.id, t.user, nm⟩ : AttrRow) else x) } : DB) = db2 := by
        injection h with h2
        exact congrArg Prod.fst h2
      rw [← hdb]
      simp
  · intro db u id nm db2 t2 h
    unfold ingredientUpdate at h
    cases hobj : ingredientGetObject db u id with
    | none => rw [hobj] at h; exact absurd h (by simp)
    | some t =>
      rw [hobj] at h
      have hdb : ({ db with ingredients := db.ingredients.map (fun x => if x.id == t.id then (⟨t.id, t.user, nm⟩ : AttrRow) else x) } : DB) = db2 := by
        injection h with h2
        exact congrArg Prod.fst h2
      rw [← hdb]
      simp
  · intro db u id db2 h
    unfold tagDelete at h
    cases hobj : tagGetObject db u id with
    | none => rw [hobj] at h; exact absurd h (by simp)
    | some t =>
      rw [hobj] at h
      injection h with h2
      rw [← h2]
      exact List.length_filter_le _ _
  · intro db u id db2 h
    unfold ingredientDelete at h
    cases hobj : ingredientGetObject db u id with
    | none => rw [hobj] at h; exact absurd h (by simp)
    | some t =>
      rw [hobj] at h
      injection h with h2
      rw [← h2]
      exact List.length_filter_le _ _

/-- Evaluation of the amended surface theorem: the detail route serves
PATCH, and a tag rename on the sample database keeps the table length
at two rows. -/
theorem C8_attribute_surface_witness :
    supportedOnDetail HttpMethod.patch = true ∧
    tagUpdate sampleDB 1 0 "Renamed" =
      some (⟨[sampleRecipeA], [⟨0, 1, "Renamed"⟩, sampleTagB], [sampleIngA], 1, 2, 1⟩,
        ⟨0, 1, "Renamed"⟩) ∧
    ([(⟨0, 1, "Renamed"⟩ : AttrRow), sampleTagB]).length = sampleDB.tags.length :=
  ⟨C8_attribute_surface.1.2.1, by decide,
   C8_attribute_surface.2.2.1 sampleDB 1 0 "Renamed"
     ⟨[sampleRecipeA], [⟨0, 1, "Renamed"⟩, sampleTagB], [sampleIngA], 1, 2, 1⟩
     ⟨0, 1, "Renamed"⟩ (by decide)⟩

/-! De-duplication engine: resolving a list and resolving the same
list with the later duplicates of a name removed reach the same table
state and resolve the same id-set. -/

theorem resolveRemove (u : Nat) (n : String) :
    ∀ (rest : List String) (rows : List AttrRow) (nid : Nat) (t : AttrRow),
      rows.find? (fun x => x.user == u && x.name == n) = some t →
      (resolveList rows nid u (rest.filter (fun m => !(m == n)))).1 =
        (resolveList rows nid u rest).1 ∧
      (resolveList rows nid u (rest.filter (fun m => !(m == n)))).2.1 =
        (resolveList rows nid u rest).2.1 ∧
      (∀ x, x ∈ (resolveList rows nid u rest).2.2 ↔
        x ∈ (resolveList rows nid u (rest.filter (fun m => !(m == n)))).2.2 ∨
          (x = t.id ∧ n ∈ rest)) := by
  intro rest
  induction rest with
  | nil =>
    intro rows nid t h
    refine ⟨rfl, rfl, fun x => ?_⟩
    simp [resolveList_nil]
  | cons m ms ih =>
    intro rows nid t h
    by_cases hmn : m = n
    · subst hmn
      have hfil : (m :: ms).filter (fun k => !(k == m)) = ms.filter (fun k => !(k == m)) := by
        simp
      have hs : findOrCreate rows nid u m = (rows, nid, t.id) := findOrCreate_found h
      obtain ⟨h1, h2, h3⟩ := ih rows nid t h
      rw [hfil]
      refine ⟨?_, ?_, fun x => ?_⟩
      · rw [h1, resolveList_cons, hs]
      · rw [h2, resolveList_cons, hs]
      · rw [resolveList_cons, hs]
        dsimp only
        simp only [List.mem_cons, h3 x]
        have hm : m ∈ m :: ms := List.mem_cons_self m ms
        tauto
    · have hfil : (m :: ms).filter (fun k => !(k == n)) = m :: ms.filter (fun k => !(k == n)) := by
        simp [hmn]
      have hpres : (findOrCreate rows nid u m).1.find? (fun x => x.user == u && x.name == n) = some t := by
        cases hf : rows.find? (fun x => x.user == u && x.name == m) with
        | some y =>
          rw [findOrCreate_found hf]
          exact h
        | none =>
          rw [findOrCreate_new hf]
          exact find?_append_left h
      obtain ⟨h1, h2, h3⟩ := ih (findOrCreate rows nid u m).1 (findOrCreate rows nid u m).2.1 t hpres
      rw [hfil]
      refine ⟨?_, ?_, fun x => ?_⟩
      · rw [resolveList_cons, resolveList_cons]
        exact h1
      · rw [resolveList_cons, resolveList_cons]
        exact h2
      · rw [resolveList_cons, resolveList_cons]
        dsimp only
        simp only [List.mem_cons, h3 x]
        have hnm : ¬ n = m := fun hh => hmn hh.symm
        tauto

theorem resolveDedupFirst (u : Nat) :
    ∀ (names : List String) (rows : List AttrRow) (nid : Nat),
      (resolveList rows nid u (dedupFirst names)).1 = (resolveList rows nid u names).1 ∧
      (resolveList rows nid u (dedupFirst names)).2.1 = (resolveList rows nid u names).2.1 ∧
      (∀ x, x ∈ (resolveList rows nid u (dedupFirst names)).2.2 ↔
        x ∈ (resolveList rows nid u names).2.2)
  | [], _, _ => by
    have h0 : dedupFirst [] = [] := by
      simp [dedupFirst]
    rw [h0]
    exact ⟨rfl, rfl, fun x => Iff.rfl⟩
  | n :: rest, rows, nid => by
    have hdf : dedupFirst (n :: rest) = n :: dedupFirst (rest.filter (fun m => !(m == n))) := by
      simp [dedupFirst]
    rw [hdf]
    obtain ⟨t, hmt, hts⟩ := findOrCreate_match rows nid u n
    have IH := resolveDedupFirst u (rest.filter (fun m => !(m == n)))
      (findOrCreate rows nid u n).1 (findOrCreate rows nid u n).2.1
    have R := resolveRemove u n rest
      (findOrCreate rows nid u n).1 (findOrCreate rows nid u n).2.1 t hmt
    refine ⟨?_, ?_, fun x => ?_⟩
    · rw [resolveList_cons, resolveList_cons, IH.1, R.1]
    · rw [resolveList_cons, resolveList_cons, IH.2.1, R.2.1]
    · rw [resolveList_cons, resolveList_cons]
      dsimp only
      simp only [List.mem_cons, IH.2.2 x, R.2.2 x, hts]
      tauto
termination_by names _ _ => names.length
decreasing_by
  simp only [List.length_cons]
  exact Nat.lt_succ_of_le (List.length_filter_le _ _)

/-- C5: duplicate names in one submitted list are de-duplicated —
resolving a list and resolving the list with later duplicates removed
produce the same database and the same id-set, hence the same
association set; concretely, creating a recipe with the tag list Thai,
Thai on the empty database associates exactly one tag row named Thai
owned by the caller. -/
theorem C5_duplicate_names (db : DB) (u : Nat) (names : List String) :
    ((tagsResolve db u (dedupFirst names)).1 = (tagsResolve db u names).1 ∧
      (∀ x, x ∈ (tagsResolve db u (dedupFirst names)).2 ↔ x ∈ (tagsResolve db u names).2) ∧
      (∀ x, x ∈ ((tagsResolve db u (dedupFirst names)).2).dedup ↔
        x ∈ ((tagsResolve db u names).2).dedup)) ∧
    ((ingredientsResolve db u (dedupFirst names)).1 = (ingredientsResolve db u names).1 ∧
      (∀ x, x ∈ (ingredientsResolve db u (dedupFirst names)).2 ↔
        x ∈ (ingredientsResolve db u names).2) ∧
      (∀ x, x ∈ ((ingredientsResolve db u (dedupFirst names)).2).dedup ↔
        x ∈ ((ingredientsResolve db u names).2).dedup)) ∧
    ((recipeCreate emptyDB 1 inputThaiTwice).2.tags = [0] ∧
      (recipeCreate emptyDB 1 inputThaiTwice).1.tags = [⟨0, 1, "Thai"⟩]) := by
  have Ht := resolveDedupFirst u names db.tags db.nextTagId
  have Hi := resolveDedupFirst u names db.ingredients db.nextIngredientId
  refine ⟨⟨?_, fun x => ?_, fun x => ?_⟩, ⟨?_, fun x => ?_, fun x => ?_⟩, by decide⟩
  · unfold tagsResolve
    dsimp only
    rw [Ht.1, Ht.2.1]
  · exact Ht.2.2 x
  · simp only [List.mem_dedup]
    exact Ht.2.2 x
  · unfold ingredientsResolve
    dsimp only
    rw [Hi.1, Hi.2.1]
  · exact Hi.2.2 x
  · simp only [List.mem_dedup]
    exact Hi.2.2 x

/-- C2: a relation list present in a create or update input replaces
the association of that relation entirely with the de-duplicated
resolved id-set; rows previously associated but absent from the list
are only disassociated — every pre-existing table row survives — and
an empty list clears the association. -/
theorem C2_association_replacement (db : DB) (u : Nat) (input : RecipeInput) :
    (∀ tns, input.tags = some tns →
      ((recipeCreate db u input).2.tags = ((tagsResolve db u tns).2).dedup ∧
        (∀ t ∈ db.tags, t ∈ (recipeCreate db u input).1.tags)) ∧
      (∀ id r db2 r2, recipeGetObject db u id = some r →
        recipeUpdate db u id input = some (db2, r2) →
        r2.tags = ((tagsResolve db u tns).2).dedup ∧
        (∀ t ∈ db.tags, t ∈ db2.tags) ∧
        (tns = [] → r2.tags = []))) ∧
    (∀ ins, input.ingredients = some ins →
      ((recipeCreate db u input).2.ingredients = ((ingredientsResolve db u ins).2).dedup ∧
        (∀ t ∈ db.ingredients, t ∈ (recipeCreate db u input).1.ingredients)) ∧
      (∀ id r db2 r2, recipeGetObject db u id = some r →
        recipeUpdate db u id input = some (db2, r2) →
        r2.ingredients = ((ingredientsResolve db u ins).2).dedup ∧
        (∀ t ∈ db.ingredients, t ∈ db2.ingredients) ∧
        (ins = [] → r2.ingredients = []))) := by
  constructor
  · intro tns ht
    constructor
    · refine ⟨(recipeCreate_tags_some ht).1, fun t htm => ?_⟩
      rw [(recipeCreate_tags_some ht).2]
      exact tagsResolve_mono db u tns t htm
    · intro id r db2 r2 hget hupd
      unfold recipeUpdate at hupd
      rw [hget] at hupd
      have hpair : applyRecipeUpdate db u r input = (db2, r2) := by
        injection hupd
      have hch := applyRecipeUpdate_tags_some db u r ht
      rw [hpair] at hch
      refine ⟨hch.1, fun t htm => ?_, fun hnil => ?_⟩
      · rw [hch.2]
        exact tagsResolve_mono db u tns t htm
      · subst hnil
        rw [hch.1]
        rfl
  · intro ins hi
    constructor
    · refine ⟨(recipeCreate_ings_some hi).1, fun t htm => ?_⟩
      rw [(recipeCreate_ings_some hi).2]
      exact ingredientsResolve_mono db u ins t htm
    · intro id r db2 r2 hget hupd
      unfold recipeUpdate at hupd
      rw [hget] at hupd
      have hpair : applyRecipeUpdate db u r input = (db2, r2) := by
        injection hupd
      have hch := applyRecipeUpdate_ings_some db u r hi
      rw [hpair] at hch
      refine ⟨hch.1, fun t htm => ?_, fun hnil => ?_⟩
      · rw [hch.2]
        exact ingredientsResolve_mono db u ins t htm
      · subst hnil
        rw [hch.1]
        rfl

/-- Evaluation of the association-replacement theorem: patching the
sample recipe with tag list Thai and ingredient list Noodles replaces
both associations with the freshly resolved rows while the previously
associated Vietnamese tag row and Prawn ingredient row survive in the
tables. -/
theorem C2_association_replacement_witness :
    (applyRecipeUpdate sampleDB 1 sampleRecipeA inputRelationsPatch).2.tags =
      ((tagsResolve sampleDB 1 ["Thai"]).2).dedup ∧
    sampleTagA ∈ (applyRecipeUpdate sampleDB 1 sampleRecipeA inputRelationsPatch).1.tags ∧
    (applyRecipeUpdate sampleDB 1 sampleRecipeA inputRelationsPatch).2.ingredients =
      ((ingredientsResolve sampleDB 1 ["Noodles"]).2).dedup ∧
    sampleIngA ∈ (applyRecipeUpdate sampleDB 1 sampleRecipeA inputRelationsPatch).1.ingredients :=
  ⟨(((C2_association_replacement sampleDB 1 inputRelationsPatch).1 ["Thai"] (by decide)).2
      0 sampleRecipeA
      (applyRecipeUpdate sampleDB 1 sampleRecipeA inputRelationsPatch).1
      (applyRecipeUpdate sampleDB 1 sampleRecipeA inputRelationsPatch).2
      (by decide) (by rw [show recipeUpdate sampleDB 1 0 inputRelationsPatch =
        some (applyRecipeUpdate sampleDB 1 sampleRecipeA inputRelationsPatch) from rfl])).1,
   (((C2_association_replacement sampleDB 1 inputRelationsPatch).1 ["Thai"] (by decide)).2
      0 sampleRecipeA
      (applyRecipeUpdate sampleDB 1 sampleRecipeA inputRelationsPatch).1
      (applyRecipeUpdate sampleDB 1 sampleRecipeA inputRelationsPatch).2
      (by decide) (by rw [show recipeUpdate sampleDB 1 0 inputRelationsPatch =
        some (applyRecipeUpdate sampleDB 1 sampleRecipeA inputRelationsPatch) from rfl])).2.1
      sampleTagA (by decide),
   (((C2_association_replacement sampleDB 1 inputRelationsPatch).2 ["Noodles"] (by decide)).2
      0 sampleRecipeA
      (applyRecipeUpdate sampleDB 1 sampleRecipeA inputRelationsPatch).1
      (applyRecipeUpdate sampleDB 1 sampleRecipeA inputRelationsPatch).2
      (by decide) (by rw [show recipeUpdate sampleDB 1 0 inputRelationsPatch =
        some (applyRecipeUpdate sampleDB 1 sampleRecipeA inputRelationsPatch) from rfl])).1,
   (((C2_association_replacement sampleDB 1 inputRelationsPatch).2 ["Noodles"] (by decide)).2
      0 sampleRecipeA
      (applyRecipeUpdate sampleDB 1 sampleRecipeA inputRelationsPatch).1
      (applyRecipeUpdate sampleDB 1 sampleRecipeA inputRelationsPatch).2
      (by decide) (by rw [show recipeUpdate sampleDB 1 0 inputRelationsPatch =
        some (applyRecipeUpdate sampleDB 1 sampleRecipeA inputRelationsPatch) from rfl])).2.1
      sampleIngA (by decide)⟩

end RecipeApp
